import Mathlib

/-!
Verification of the audio codec and request-assembly helpers of
`src/services/geminiService.ts`.

Bytes are modelled as natural numbers below 256, binary strings as
`List Char` (each char code below 256), and JavaScript numbers that only
ever hold exact binary fractions (normalized audio samples, the exact
products `sample * 32768`) as rationals, on which every operation the
code performs (scaling by a power of two, truncation toward zero) is
exact in IEEE double precision.
-/

namespace GeminiService

/-! ## Base64 alphabet

`encode` and `decode` in the source delegate to the platform builtins
`btoa` / `atob`, which implement RFC 4648 base64 over latin1 binary
strings; the alphabet tables below model those builtins. -/

/-- Character of the RFC 4648 base64 alphabet for a sextet value
(`btoa` model). -/
def sextetChar (n : Nat) : Char :=
  if n < 26 then Char.ofNat (n + 65)
  else if n < 52 then Char.ofNat (n + 71)
  else if n < 62 then Char.ofNat (n - 4)
  else if n = 62 then Char.ofNat 43
  else Char.ofNat 47

/-- Sextet value of a base64 alphabet character, `none` on a character
outside the alphabet (`atob` model). -/
def sextetVal (c : Char) : Option Nat :=
  let n := c.toNat
  if 65 ≤ n ∧ n ≤ 90 then some (n - 65)
  else if 97 ≤ n ∧ n ≤ 122 then some (n - 71)
  else if 48 ≤ n ∧ n ≤ 57 then some (n + 4)
  else if n = 43 then some 62
  else if n = 47 then some 63
  else none

/-- Base64 encoding of a byte list, three bytes to four characters with
`=` padding, as produced by `btoa` on the binary string that
`encode` builds from its `Uint8Array` argument. -/
def encodeB64 : List Nat → List Char
  | [] => []
  | [x] =>
      [sextetChar (x / 4), sextetChar (x % 4 * 16), '=', '=']
  | [x, y] =>
      [sextetChar (x / 4), sextetChar (x % 4 * 16 + y / 16),
       sextetChar (y % 16 * 4), '=']
  | x :: y :: z :: rest =>
      sextetChar (x / 4) :: sextetChar (x % 4 * 16 + y / 16) ::
      sextetChar (y % 16 * 4 + z / 64) :: sextetChar (z % 64) ::
      encodeB64 rest

/-- Base64 decoding of a character list, four characters to three bytes
with `=` padding, `none` on malformed input, as `atob` followed by the
`charCodeAt` loop of `decode`. -/
def decodeB64 : List Char → Option (List Nat)
  | [] => some []
  | c1 :: c2 :: c3 :: c4 :: rest =>
      match sextetVal c1, sextetVal c2 with
      | some a, some b =>
          if c3 = '=' ∧ c4 = '=' ∧ rest = [] then
            some [a * 4 + b / 16]
          else if c4 = '=' ∧ rest = [] then
            match sextetVal c3 with
            | some c => some [a * 4 + b / 16, b % 16 * 16 + c / 4]
            | none => none
          else
            match sextetVal c3, sextetVal c4 with
            | some c, some d =>
                (decodeB64 rest).map
                  (fun t => (a * 4 + b / 16) :: (b % 16 * 16 + c / 4) ::
                            (c % 4 * 64 + d) :: t)
            | _, _ => none
      | _, _ => none
  | _ => none

/-- `encode` of the source: bytes to a binary string to `btoa`. -/
def encode (bytes : List Nat) : String :=
  String.mk (encodeB64 bytes)

/-- `decode` of the source: `atob`, then one byte per character. -/
def decode (base64 : String) : Option (List Nat) :=
  decodeB64 base64.data

/-! ## 16-bit PCM

`decodeAudioData` views the incoming bytes as an `Int16Array`
(little-endian two's-complement words) and divides by `32768.0`;
`createPcmBlob` multiplies each normalized sample by `32768`, stores it
to an `Int16Array` element (ECMAScript truncation toward zero followed
by wrapping to 16 bits, no clamping) and base64-encodes the bytes.
Samples are modelled as rationals: every number the code manipulates is
an exact binary fraction, so the float arithmetic is exact. -/

/-- Two's-complement reading of a 16-bit word (an `Int16Array` element
seen through the underlying buffer). -/
def toSigned16 (u : Nat) : Int :=
  if u < 32768 then (u : Int) else (u : Int) - 65536

/-- The interleaved 16-bit little-endian signed integers of a byte list,
as `new Int16Array(data.buffer)`; a trailing odd byte is dropped. -/
def int16sFromBytes : List Nat → List Int
  | b0 :: b1 :: rest => toSigned16 (b0 + 256 * b1) :: int16sFromBytes rest
  | _ => []

/-- The 16-bit little-endian signed integer at interleaved position `k`
of a byte list (the spec's `int16At`). -/
def int16At (bytes : List Nat) (k : Nat) : Int :=
  toSigned16 (bytes.getD (2 * k) 0 + 256 * bytes.getD (2 * k + 1) 0)

/-- The playable buffer produced by `decodeAudioData`: per-channel
sample lists at a sample rate. -/
structure AudioBufferModel where
  sampleRate : Nat
  channels : List (List ℚ)

/-- `decodeAudioData` of the source: reinterpret the bytes as int16,
de-interleave into `numChannels` channels of `frameCount` frames,
dividing each word by `32768.0`. -/
def decodeAudioData (data : List Nat) (sampleRate numChannels : Nat) :
    AudioBufferModel :=
  let dataInt16 := int16sFromBytes data
  let frameCount := dataInt16.length / numChannels
  { sampleRate := sampleRate
    channels := (List.range numChannels).map (fun channel =>
      (List.range frameCount).map (fun i =>
        ((dataInt16.getD (i * numChannels + channel) 0 : ℚ) / 32768))) }

/-- Sample at a channel and frame of a decoded buffer. -/
def sampleAt (buf : AudioBufferModel) (channel frame : Nat) : ℚ :=
  (buf.channels.getD channel []).getD frame 0

/-- The blob value returned by `createPcmBlob` (a `Blob` of the external
SDK: base64 payload plus mime type). -/
structure GenaiBlob where
  data : String
  mimeType : String

/-- Truncation toward zero of a rational, as ECMAScript `ToIntegerOrInfinity`
acting on an exact binary fraction. -/
def jsTrunc (q : ℚ) : Int :=
  q.num.tdiv q.den

/-- Wrap an integer to the signed 16-bit range, as storing to an
`Int16Array` element. -/
def wrap16 (t : Int) : Int :=
  if t % 65536 < 32768 then t % 65536 else t % 65536 - 65536

/-- Line 48 of the source: `int16[i] = data[i] * 32768` — multiply by
`32768`, truncate toward zero, wrap to 16 bits, with no clamping. -/
def sampleToInt16 (q : ℚ) : Int :=
  wrap16 (jsTrunc (q * 32768))

/-- Little-endian byte pair of an `Int16Array` element, as seen by
`new Uint8Array(int16.buffer)`. -/
def int16ToBytesLE (v : Int) : List Nat :=
  [(v % 65536).toNat % 256, (v % 65536).toNat / 256]

/-- `createPcmBlob` of the source. -/
def createPcmBlob (data : List ℚ) (sampleRate : Nat) : GenaiBlob :=
  { data := encode (((data.map sampleToInt16).map int16ToBytesLE).flatten)
    mimeType := "audio/pcm;rate=" ++ toString sampleRate }

/-- Decode a blob's base64 payload back to its 16-bit samples (the
measurement used by the spec's inverse-scaling property). -/
def decodedInt16s (blob : GenaiBlob) : Option (List Int) :=
  (decode blob.data).map int16sFromBytes

/-! ## Request assembly

`generateContent` (lines 158-210) assembles an ordered part list and a
config object from its optional `config` argument before delegating to
the external SDK; both are modelled as pure values. -/

/-- An image input of `types.ts`: inline base64 data plus mime type. -/
structure ImageInput where
  base64Data : String
  mimeType : String
deriving DecidableEq

/-- The optional audio input of `generateContent`. -/
structure AudioInput where
  base64Data : String
  mimeType : String
deriving DecidableEq

/-- A request part: the tagged union of the data model. -/
inductive Part where
  | inlineData (data mimeType : String)
  | text (t : String)
deriving DecidableEq

/-- A tool of the SDK tool list; the code observes only the truthiness
of its `googleMaps` property. -/
structure Tool where
  googleMaps : Bool
deriving DecidableEq

/-- The `coords` field of a `GeolocationPosition`. -/
structure GeoCoords where
  latitude : ℚ
  longitude : ℚ
deriving DecidableEq

/-- A host `GeolocationPosition` value. -/
structure GeolocationPosition where
  coords : GeoCoords
deriving DecidableEq

/-- The optional `config` argument of `generateContent`; absent
properties are `none`. -/
structure RequestOptions where
  systemInstruction : Option String := none
  thinkingBudget : Option Int := none
  tools : Option (List Tool) := none
  images : Option (List ImageInput) := none
  audio : Option AudioInput := none
  geolocation : Option GeolocationPosition := none

/-- The SDK `thinkingConfig` wrapper. -/
structure ThinkingConfigModel where
  thinkingBudget : Int
deriving DecidableEq

/-- The latitude/longitude payload of the injected tool config. -/
structure LatLng where
  latitude : ℚ
  longitude : ℚ
deriving DecidableEq

/-- The `retrievalConfig` sub-structure. -/
structure RetrievalConfig where
  latLng : LatLng
deriving DecidableEq

/-- The `toolConfig` sub-structure injected for maps grounding. -/
structure ToolConfig where
  retrievalConfig : RetrievalConfig
deriving DecidableEq

/-- The `config` object passed to the SDK call (lines 184-203). -/
structure GenerateConfig where
  systemInstruction : Option String
  thinkingConfig : Option ThinkingConfigModel
  tools : Option (List Tool)
  toolConfig : Option ToolConfig

/-- Lines 171-182: the ordered part list — image parts in caller order,
then the single optional audio part, then the text part; a falsy
(empty) prompt contributes no part. -/
def buildParts (config : Option RequestOptions) (prompt : String) : List Part :=
  let images := (config.bind (fun c => c.images)).getD []
  let imageParts :=
    if images.length > 0 then
      images.map (fun img => Part.inlineData img.base64Data img.mimeType)
    else []
  let audioParts :=
    match config.bind (fun c => c.audio) with
    | some a => [Part.inlineData a.base64Data a.mimeType]
    | none => []
  let textParts := if prompt ≠ "" then [Part.text prompt] else []
  imageParts ++ audioParts ++ textParts

/-- Lines 184-203: the config object, including the conditional
`toolConfig` injection for maps grounding. -/
def buildGenerateConfig (config : Option RequestOptions) : GenerateConfig :=
  let base : GenerateConfig :=
    { systemInstruction := config.bind (fun c => c.systemInstruction)
      thinkingConfig :=
        match config.bind (fun c => c.thinkingBudget) with
        | some b => some { thinkingBudget := b }
        | none => none
      tools := config.bind (fun c => c.tools)
      toolConfig := none }
  if ((config.bind (fun c => c.tools)).getD []).any (fun t => t.googleMaps) then
    match config.bind (fun c => c.geolocation) with
    | some g =>
        { base with
          toolConfig := some
            { retrievalConfig :=
              { latLng :=
                { latitude := g.coords.latitude
                  longitude := g.coords.longitude } } } }
    | none => base
  else base

/-- The request value handed to `ai.models.generateContent`
(lines 205-209). -/
structure GenRequest where
  model : String
  contents : List Part
  config : GenerateConfig

/-- `generateContent` of the source up to the external SDK call: the
fully assembled request. -/
def generateContentRequest (model : String) (prompt : String)
    (config : Option RequestOptions) : GenRequest :=
  { model := model
    contents := buildParts config prompt
    config := buildGenerateConfig config }

/-! ## Grounding extraction -/

/-- A review snippet, with the two fields the code copies. -/
structure ReviewSnippet where
  reviewSnippet : String
  uri : String
deriving DecidableEq

/-- The `placeAnswerSources` field of a maps chunk. -/
structure PlaceAnswerSources where
  reviewSnippets : Option (List ReviewSnippet)
deriving DecidableEq

/-- The `web` field of a source chunk; the SDK leaves both fields
optional. -/
structure RawWeb where
  uri : Option String
  title : Option String
deriving DecidableEq

/-- The `maps` field of a source chunk. -/
structure RawMaps where
  uri : Option String
  title : Option String
  placeAnswerSources : Option PlaceAnswerSources
deriving DecidableEq

/-- An element of `groundingMetadata.groundingChunks`. -/
structure RawChunk where
  web : Option RawWeb
  maps : Option RawMaps
deriving DecidableEq

/-- The `groundingMetadata` of a candidate. -/
structure GroundingMetadata where
  groundingChunks : Option (List RawChunk)

/-- A response candidate, restricted to the field the code reads. -/
structure Candidate where
  groundingMetadata : Option GroundingMetadata

/-- A `GenerateContentResponse`, restricted to the fields the code
reads. -/
structure GenResponse where
  candidates : Option (List Candidate)

/-- The output `GroundingChunk` union of the data model. -/
inductive GroundingChunk where
  | web (uri title : String)
  | maps (uri title : String)
         (placeAnswerSources : Option (List ReviewSnippet))
deriving DecidableEq

/-- JavaScript truthiness of an optional string field: present and
non-empty. -/
def truthyStr : Option String → Bool
  | some s => !(s == "")
  | none => false

/-- Lines 134-150: the maps half of the loop body — requires truthy
`uri` and `title`, copies the review snippets through when the nested
chain is present. -/
def convertMapsChunk : Option RawMaps → Option GroundingChunk
  | some m =>
      if truthyStr m.uri && truthyStr m.title then
        some (GroundingChunk.maps (m.uri.getD "") (m.title.getD "")
          (match m.placeAnswerSources with
           | some pas =>
               match pas.reviewSnippets with
               | some snippets =>
                   some (snippets.map (fun sn =>
                     { reviewSnippet := sn.reviewSnippet, uri := sn.uri }))
               | none => none
           | none => none))
      else none
  | none => none

/-- The body of the extraction loop (lines 131-151): the chunk pushed
for a source chunk, if any. -/
def convertChunk (c : RawChunk) : Option GroundingChunk :=
  match c.web with
  | some w =>
      if truthyStr w.uri && truthyStr w.title then
        some (GroundingChunk.web (w.uri.getD "") (w.title.getD ""))
      else convertMapsChunk c.maps
  | none => convertMapsChunk c.maps

/-- Whether the web branch accepts the chunk. -/
def webValid (c : RawChunk) : Bool :=
  match c.web with
  | some w => truthyStr w.uri && truthyStr w.title
  | none => false

/-- Whether the maps branch accepts the chunk. -/
def mapsValid (c : RawChunk) : Bool :=
  match c.maps with
  | some m => truthyStr m.uri && truthyStr m.title
  | none => false

/-- The optional chain
`response.candidates?.[0]?.groundingMetadata?.groundingChunks`. -/
def groundingChunksOf (response : GenResponse) : Option (List RawChunk) :=
  match response.candidates with
  | some cands =>
      match cands.head? with
      | some cand =>
          match cand.groundingMetadata with
          | some gm => gm.groundingChunks
          | none => none
      | none => none
  | none => none

/-- `extractGroundingChunks` of the source. -/
def extractGroundingChunks (response : GenResponse) : List GroundingChunk :=
  match groundingChunksOf response with
  | some chunks => chunks.filterMap convertChunk
  | none => []

/-! ## Error normalization -/

/-- The `data` field of a response-shaped error. -/
structure ErrData where
  message : Option String
deriving DecidableEq

/-- A response-shaped error payload; a `status` of `0` models a falsy
status (absent, zero or NaN), which the code treats alike. -/
structure ErrResponse where
  status : Nat
  statusText : String
  data : Option ErrData
deriving DecidableEq

/-- An error value, restricted to the fields `handleApiError` reads. -/
structure ApiError where
  message : Option String := none
  response : Option ErrResponse := none
deriving DecidableEq

/-- The substring whose presence triggers the key-reset handling. -/
def notFoundMsg : String := "Requested entity was not found."

/-- The appended credential re-selection hint. -/
def keyHint : String :=
  " This might indicate an issue with your selected API key. Please try selecting it again."

/-- The generic fallback message. -/
def unexpectedMsg : String := "An unexpected error occurred."

/-- Substring test on character lists (`String.prototype.includes`). -/
def hasSub (needle : List Char) : List Char → Bool
  | [] => needle.isEmpty
  | c :: rest => needle.isPrefixOf (c :: rest) || hasSub needle rest

/-- The response-shape fallback of lines 107-112: used when the error
has no truthy `message`. -/
def responseMessage (error : ApiError) : String :=
  match error.response with
  | some r =>
      if r.status ≠ 0 then
        let base := "API Error: " ++ toString r.status ++ " " ++ r.statusText
        match r.data with
        | some d =>
            match d.message with
            | some m => if m ≠ "" then base ++ " - " ++ m else base
            | none => base
        | none => base
      else unexpectedMsg
  | none => unexpectedMsg

/-- Lines 104-112: prefer a truthy `message` field, else the
response-shaped fallback, else the generic message. -/
def normalizeErrorMessage (error : ApiError) : String :=
  match error.message with
  | some m => if m ≠ "" then m else responseMessage error
  | none => responseMessage error

/-- `handleApiError` of the source: the returned user-facing message
and the number of fire-and-forget `openSelectKey` calls;
`dialogAvailable` models `window.aistudio && window.aistudio.openSelectKey`
being present. -/
def handleApiError (dialogAvailable : Bool) (error : ApiError) : String × Nat :=
  let errorMessage := normalizeErrorMessage error
  if hasSub notFoundMsg.data errorMessage.data then
    (errorMessage ++ keyHint, if dialogAvailable then 1 else 0)
  else
    (errorMessage, 0)

/-! ## Veo key selection -/

/-- The host `window.aistudio` surface: whether the API is available,
and what `hasSelectedApiKey()` resolves to. -/
structure AiStudioEnv where
  available : Bool
  hasSelectedKey : Bool
deriving DecidableEq

/-- `checkAndSelectVeoApiKey` of the source (lines 84-99): the returned
boolean paired with whether the key-selection dialog was opened. -/
def checkAndSelectVeoApiKey (env : AiStudioEnv) : Bool × Bool :=
  if !env.available then (true, false)
  else if !env.hasSelectedKey then (true, true)
  else (true, false)

/-- Spec-side property: `needle` occurs as a contiguous substring of
`hay`. -/
def ContainsSub (needle hay : String) : Prop :=
  ∃ p s, hay.data = p ++ needle.data ++ s

-- SECTION-THEOREMS

/-- The alphabet table inverts on every sextet value. -/
theorem sextetVal_sextetChar : ∀ n : Fin 64, sextetVal (sextetChar n.val) = some n.val := by
  decide

/-- No sextet value is encoded as the padding character. -/
theorem sextetChar_ne_pad : ∀ n : Fin 64, sextetChar n.val ≠ '=' := by
  decide

theorem sextetVal_sextetChar_of_lt {n : Nat} (h : n < 64) :
    sextetVal (sextetChar n) = some n :=
  sextetVal_sextetChar ⟨n, h⟩

theorem sextetChar_ne_pad_of_lt {n : Nat} (h : n < 64) :
    sextetChar n ≠ '=' :=
  sextetChar_ne_pad ⟨n, h⟩

/-- Byte-level base64 round-trip: decoding an encoded byte list recovers
it exactly. -/
theorem decodeB64_encodeB64 :
    ∀ bytes : List Nat, (∀ b ∈ bytes, b < 256) →
      decodeB64 (encodeB64 bytes) = some bytes
  | [], _ => rfl
  | [x], h => by
      have hx : x < 256 := h x (by simp)
      have h1 : x / 4 < 64 := by omega
      have h2 : x % 4 * 16 < 64 := by omega
      simp only [encodeB64, decodeB64, sextetVal_sextetChar_of_lt h1,
        sextetVal_sextetChar_of_lt h2]
      rw [if_pos (by simp)]
      have : x / 4 * 4 + x % 4 * 16 / 16 = x := by omega
      rw [this]
  | [x, y], h => by
      have hx : x < 256 := h x (by simp)
      have hy : y < 256 := h y (by simp)
      have h1 : x / 4 < 64 := by omega
      have h2 : x % 4 * 16 + y / 16 < 64 := by omega
      have h3 : y % 16 * 4 < 64 := by omega
      simp only [encodeB64, decodeB64, sextetVal_sextetChar_of_lt h1,
        sextetVal_sextetChar_of_lt h2, sextetVal_sextetChar_of_lt h3]
      rw [if_neg (by simp [sextetChar_ne_pad_of_lt h3]),
        if_pos (by simp)]
      have e1 : x / 4 * 4 + (x % 4 * 16 + y / 16) / 16 = x := by omega
      have e2 : (x % 4 * 16 + y / 16) % 16 * 16 + y % 16 * 4 / 4 = y := by omega
      rw [e1, e2]
  | x :: y :: z :: rest, h => by
      have hx : x < 256 := h x (by simp)
      have hy : y < 256 := h y (by simp)
      have hz : z < 256 := h z (by simp)
      have h1 : x / 4 < 64 := by omega
      have h2 : x % 4 * 16 + y / 16 < 64 := by omega
      have h3 : y % 16 * 4 + z / 64 < 64 := by omega
      have h4 : z % 64 < 64 := by omega
      have ih := decodeB64_encodeB64 rest
        (fun b hb => h b (by simp [hb]))
      simp only [encodeB64, decodeB64, sextetVal_sextetChar_of_lt h1,
        sextetVal_sextetChar_of_lt h2, sextetVal_sextetChar_of_lt h3,
        sextetVal_sextetChar_of_lt h4]
      rw [if_neg (by simp [sextetChar_ne_pad_of_lt h3]),
        if_neg (by simp [sextetChar_ne_pad_of_lt h4]), ih]
      have e1 : x / 4 * 4 + (x % 4 * 16 + y / 16) / 16 = x := by omega
      have e2 : (x % 4 * 16 + y / 16) % 16 * 16 + (y % 16 * 4 + z / 64) / 4 = y := by
        omega
      have e3 : (y % 16 * 4 + z / 64) % 4 * 64 + z % 64 = z := by omega
      simp [e1, e2, e3]

/-- String-level round-trip, in the source's names. -/
theorem decode_encode (bytes : List Nat) (h : ∀ b ∈ bytes, b < 256) :
    decode (encode bytes) = some bytes :=
  decodeB64_encodeB64 bytes h

theorem int16sFromBytes_length :
    ∀ data : List Nat, (int16sFromBytes data).length = data.length / 2
  | [] => rfl
  | [_] => by simp [int16sFromBytes]
  | _ :: _ :: rest => by
      simp only [int16sFromBytes, List.length_cons,
        int16sFromBytes_length rest]
      omega

theorem int16sFromBytes_getD :
    ∀ (data : List Nat) (k : Nat), 2 * k + 1 < data.length →
      (int16sFromBytes data).getD k 0 = int16At data k
  | b0 :: b1 :: rest, 0, _ => rfl
  | b0 :: b1 :: rest, k + 1, h => by
      have ih := int16sFromBytes_getD rest k (by simp at h; omega)
      simp only [int16sFromBytes, List.getD_cons_succ, ih, int16At]
      have e2 : 2 * (k + 1) = 2 * k + 1 + 1 := by omega
      rw [e2]
      simp [List.getD_cons_succ]
  | [], k, h => by simp at h
  | [_], k, h => by simp at h

theorem wrap16_mem_range (t : Int) : -32768 ≤ wrap16 t ∧ wrap16 t < 32768 := by
  unfold wrap16
  omega

theorem wrap16_eq_self {t : Int} (h1 : -32768 ≤ t) (h2 : t < 32768) :
    wrap16 t = t := by
  unfold wrap16
  omega

theorem int16ToBytesLE_lt (v : Int) : ∀ b ∈ int16ToBytesLE v, b < 256 := by
  unfold int16ToBytesLE
  intro b hb
  simp at hb
  omega

theorem toSigned16_bytes {v : Int} (h1 : -32768 ≤ v) (h2 : v < 32768) :
    toSigned16 ((v % 65536).toNat % 256 + 256 * ((v % 65536).toNat / 256)) = v := by
  unfold toSigned16
  omega

theorem int16sFromBytes_int16ToBytesLE :
    ∀ vs : List Int, (∀ v ∈ vs, -32768 ≤ v ∧ v < 32768) →
      int16sFromBytes ((vs.map int16ToBytesLE).flatten) = vs
  | [], _ => rfl
  | v :: rest, h => by
      have hv := h v (by simp)
      have ih := int16sFromBytes_int16ToBytesLE rest
        (fun w hw => h w (by simp [hw]))
      simp [int16ToBytesLE, int16sFromBytes, ih,
        toSigned16_bytes hv.1 hv.2]

theorem jsTrunc_eq_floor {q : ℚ} (h : 0 ≤ q) : jsTrunc q = ⌊q⌋ := by
  rw [jsTrunc, Rat.floor_def,
    Int.tdiv_eq_ediv (Rat.num_nonneg.mpr h) (by positivity)]

theorem jsTrunc_neg (q : ℚ) : jsTrunc (-q) = -jsTrunc q := by
  simp [jsTrunc, Rat.neg_num, Rat.neg_den, Int.neg_tdiv]

theorem jsTrunc_eq_ceil {q : ℚ} (h : q ≤ 0) : jsTrunc q = ⌈q⌉ := by
  have h1 : jsTrunc q = -jsTrunc (-q) := by rw [jsTrunc_neg, neg_neg]
  rw [h1, jsTrunc_eq_floor (by linarith), Int.floor_neg, neg_neg]

/-- The truncated value is within one of the floor in either sign. -/
theorem jsTrunc_bounds (q : ℚ) : ⌊q⌋ ≤ jsTrunc q ∧ jsTrunc q ≤ ⌊q⌋ + 1 := by
  rcases le_or_lt 0 q with h | h
  · rw [jsTrunc_eq_floor h]
    omega
  · rw [jsTrunc_eq_ceil h.le]
    exact ⟨Int.floor_le_ceil q, Int.ceil_le_floor_add_one q⟩

/-- Truncation toward zero lands within one unit of rounding. -/
theorem jsTrunc_sub_round (x : ℚ) : (jsTrunc x - round x).natAbs ≤ 1 := by
  have hb := jsTrunc_bounds x
  have hr : ⌊x⌋ ≤ round x ∧ round x ≤ ⌊x⌋ + 1 := by
    rw [round_eq]
    constructor
    · exact Int.floor_le_floor (by linarith)
    · have : ⌊x + 1 / 2⌋ ≤ ⌊x + 1⌋ := Int.floor_le_floor (by linarith)
      have h1 : ⌊x + 1⌋ = ⌊x⌋ + 1 := by exact_mod_cast Int.floor_add_one x
      omega
  omega

/-- In-range samples do not wrap: the stored int16 is the plain
truncation of `sample * 32768`. -/
theorem sampleToInt16_of_mem_Ico {q : ℚ} (h1 : -1 ≤ q) (h2 : q < 1) :
    sampleToInt16 q = jsTrunc (q * 32768) := by
  have hx1 : (-32768 : ℚ) ≤ q * 32768 := by linarith
  have hx2 : q * 32768 < 32768 := by linarith
  rcases le_or_lt 0 (q * 32768) with h | h
  · rw [sampleToInt16, jsTrunc_eq_floor h, wrap16_eq_self]
    · have := Int.floor_nonneg.mpr h
      omega
    · exact Int.floor_lt.mpr (by exact_mod_cast hx2)
  · rw [sampleToInt16, jsTrunc_eq_ceil h.le, wrap16_eq_self]
    · have hc : ((-32768 : Int) : ℚ) ≤ q * 32768 := by exact_mod_cast hx1
      have hcc : ((-32768 : Int) : ℚ) ≤ (⌈q * 32768⌉ : ℚ) :=
        le_trans hc (Int.le_ceil _)
      exact_mod_cast hcc
    · have hc : ⌈q * 32768⌉ ≤ 0 := Int.ceil_le.mpr (by exact_mod_cast h.le)
      omega


theorem interleave_index_lt {i c frames chans : Nat}
    (hi : i < frames) (hc : c < chans) :
    i * chans + c < chans * frames := by
  have h1 : (i + 1) * chans ≤ frames * chans :=
    mul_le_mul_right' (Nat.succ_le_of_lt hi) chans
  have h2 : (i + 1) * chans = i * chans + chans := by ring
  have h3 : frames * chans = chans * frames := Nat.mul_comm frames chans
  linarith

theorem sampleAt_decodeAudioData (data : List Nat) (rate chans frames : Nat)
    (hc : 0 < chans) (hlen : data.length = 2 * (chans * frames))
    {c i : Nat} (hcc : c < chans) (hi : i < frames) :
    sampleAt (decodeAudioData data rate chans) c i =
      (int16At data (i * chans + c) : ℚ) / 32768 := by
  have hl16 : (int16sFromBytes data).length = chans * frames := by
    rw [int16sFromBytes_length, hlen]
    exact Nat.mul_div_cancel_left _ (by norm_num)
  have hframes : (int16sFromBytes data).length / chans = frames := by
    rw [hl16]
    exact Nat.mul_div_cancel_left frames hc
  have hidx := interleave_index_lt hi hcc
  have hbound : 2 * (i * chans + c) + 1 < data.length := by
    rw [hlen]
    linarith
  simp only [sampleAt, decodeAudioData, hframes, List.getD_eq_getElem?_getD,
    List.getElem?_map, List.getElem?_range hcc, List.getElem?_range hi,
    Option.map_some', Option.getD_some]
  rw [← List.getD_eq_getElem?_getD, int16sFromBytes_getD data _ hbound]

theorem decodedInt16s_createPcmBlob (samples : List ℚ) (rate : Nat) :
    decodedInt16s (createPcmBlob samples rate) =
      some (samples.map sampleToInt16) := by
  have hb256 : ∀ b ∈ ((samples.map sampleToInt16).map int16ToBytesLE).flatten,
      b < 256 := by
    intro b hb
    simp only [List.mem_flatten, List.mem_map] at hb
    obtain ⟨l, ⟨v, hv, rfl⟩, hbl⟩ := hb
    exact int16ToBytesLE_lt v b hbl
  have hrange : ∀ v ∈ samples.map sampleToInt16, -32768 ≤ v ∧ v < 32768 := by
    intro v hv
    simp only [List.mem_map] at hv
    obtain ⟨q, hq, rfl⟩ := hv
    exact wrap16_mem_range _
  simp only [decodedInt16s, createPcmBlob]
  rw [decode_encode _ hb256, Option.map_some',
    int16sFromBytes_int16ToBytesLE _ hrange]

theorem sampleToInt16_sub_round {q : ℚ} (h1 : -1 ≤ q) (h2 : q < 1) :
    (sampleToInt16 q - round (q * 32768)).natAbs ≤ 1 := by
  rw [sampleToInt16_of_mem_Ico h1 h2]
  exact jsTrunc_sub_round _

theorem sampleToInt16_one : sampleToInt16 1 = -32768 := by
  have h0 : ((1 : ℚ) * 32768) = ((32768 : Int) : ℚ) := by norm_num
  rw [sampleToInt16, h0, jsTrunc_eq_floor (by positivity), Int.floor_intCast]
  decide

/-- C1: for every byte sequence, decoding the base64 text produced by
encoding it returns exactly the original bytes:
`decode (encode b) = b`. -/
theorem claim_C1_decode_encode_roundtrip (bytes : List Nat)
    (h : ∀ b ∈ bytes, b < 256) :
    decode (encode bytes) = some bytes :=
  decodeB64_encodeB64 bytes h

theorem claim_C1_witness :
    (∀ b ∈ [0, 1, 77, 255], b < 256) ∧
      decode (encode [0, 1, 77, 255]) = some [0, 1, 77, 255] :=
  ⟨by decide, claim_C1_decode_encode_roundtrip [0, 1, 77, 255] (by decide)⟩

/-- C2 as stated is false on the code: the sample `1`, which lies in
`[-1, 1]`, is stored as `-32768` (truncation to `32768` wraps with no
clamping), `65536` units away from `round(1 * 32768) = 32768`. -/
theorem claim_C2_counterexample :
    ¬ (∀ (samples : List ℚ) (rate : Nat),
        (∀ q ∈ samples, -1 ≤ q ∧ q ≤ 1) →
        ∀ vs, decodedInt16s (createPcmBlob samples rate) = some vs →
          ∀ i, i < samples.length →
            (vs.getD i 0 - round (samples.getD i 0 * 32768)).natAbs ≤ 1) := by
  intro hclaim
  have h1 := hclaim [1] 8000 (by norm_num) ([1].map sampleToInt16)
    (decodedInt16s_createPcmBlob [1] 8000) 0 (by norm_num)
  rw [List.map_cons, List.map_nil, sampleToInt16_one] at h1
  simp only [List.getD_cons_zero] at h1
  rw [show round ((1 : ℚ) * 32768) = 32768 by norm_num [round_eq]] at h1
  exact absurd h1 (by decide)

/-- C2 amended: for samples in `[-1, 1)` — excluding exactly `1`, where
the unclamped conversion wraps — the blob's mime type is exactly
`audio/pcm;rate=<sampleRate>`, decoding the base64 payload back to
16-bit little-endian integers recovers the stored values, each stored
value is the unclamped truncate-and-wrap of `sample * 32768`, and each
is within one unit of `round(sample * 32768)`. -/
theorem claim_C2_pcm_blob (samples : List ℚ) (rate : Nat)
    (h : ∀ q ∈ samples, -1 ≤ q ∧ q < 1) :
    (createPcmBlob samples rate).mimeType = "audio/pcm;rate=" ++ toString rate ∧
    decodedInt16s (createPcmBlob samples rate) = some (samples.map sampleToInt16) ∧
    (∀ q : ℚ, sampleToInt16 q = wrap16 (jsTrunc (q * 32768))) ∧
    ∀ i, i < samples.length →
      ((samples.map sampleToInt16).getD i 0 -
          round (samples.getD i 0 * 32768)).natAbs ≤ 1 := by
  refine ⟨rfl, decodedInt16s_createPcmBlob samples rate, fun q => rfl, ?_⟩
  intro i hi
  rw [List.getD_eq_getElem _ _ (by simpa using hi), List.getElem_map,
    List.getD_eq_getElem _ _ hi]
  have hmem : samples[i] ∈ samples := List.getElem_mem hi
  exact sampleToInt16_sub_round (h _ hmem).1 (h _ hmem).2

theorem claim_C2_witness :
    (∀ q ∈ [(0 : ℚ)], -1 ≤ q ∧ q < 1) ∧
      ((createPcmBlob [(0 : ℚ)] 16000).mimeType =
          "audio/pcm;rate=" ++ toString 16000 ∧
        decodedInt16s (createPcmBlob [(0 : ℚ)] 16000) =
          some ([(0 : ℚ)].map sampleToInt16) ∧
        (∀ q : ℚ, sampleToInt16 q = wrap16 (jsTrunc (q * 32768))) ∧
        ∀ i, i < [(0 : ℚ)].length →
          (([(0 : ℚ)].map sampleToInt16).getD i 0 -
              round ([(0 : ℚ)].getD i 0 * 32768)).natAbs ≤ 1) :=
  ⟨by norm_num, claim_C2_pcm_blob [0] 16000 (by norm_num)⟩

/-- C3: for a byte sequence of length `2 * channelCount * frames`, the
decoded buffer's sample at frame `i` of channel `c` equals the
little-endian 16-bit signed integer at interleaved position
`i * channels + c` divided by exactly `32768`. -/
theorem claim_C3_decode_linear (data : List Nat) (rate chans frames : Nat)
    (hc : 0 < chans) (hlen : data.length = 2 * (chans * frames)) :
    ∀ c, c < chans → ∀ i, i < frames →
      sampleAt (decodeAudioData data rate chans) c i =
        (int16At data (i * chans + c) : ℚ) / 32768 :=
  fun _ hcc _ hi => sampleAt_decodeAudioData data rate chans frames hc hlen hcc hi

theorem claim_C3_witness :
    sampleAt (decodeAudioData [0, 128, 255, 127] 8000 2) 1 0 =
      (int16At [0, 128, 255, 127] 1 : ℚ) / 32768 :=
  claim_C3_decode_linear [0, 128, 255, 127] 8000 2 1 (by decide) (by decide)
    1 (by decide) 0 (by decide)



theorem buildGenerateConfig_systemInstruction (config : Option RequestOptions) :
    (buildGenerateConfig config).systemInstruction =
      config.bind (fun c => c.systemInstruction) := by
  unfold buildGenerateConfig
  repeat' split
  all_goals rfl

theorem buildGenerateConfig_tools (config : Option RequestOptions) :
    (buildGenerateConfig config).tools = config.bind (fun c => c.tools) := by
  unfold buildGenerateConfig
  repeat' split
  all_goals rfl

theorem buildGenerateConfig_thinkingConfig (config : Option RequestOptions) :
    (buildGenerateConfig config).thinkingConfig =
      match config.bind (fun c => c.thinkingBudget) with
      | some b => some { thinkingBudget := b }
      | none => none := by
  unfold buildGenerateConfig
  repeat' split
  all_goals rfl

theorem buildGenerateConfig_toolConfig (config : Option RequestOptions) :
    (buildGenerateConfig config).toolConfig =
      if ((config.bind (fun c => c.tools)).getD []).any
          (fun t => t.googleMaps) then
        match config.bind (fun c => c.geolocation) with
        | some g =>
            some { retrievalConfig := { latLng :=
              { latitude := g.coords.latitude
                longitude := g.coords.longitude } } }
        | none => none
      else none := by
  unfold buildGenerateConfig
  cases hany : ((config.bind (fun c => c.tools)).getD []).any
      (fun t => t.googleMaps)
  · simp [hany]
  · rcases hgeo : config.bind (fun c => c.geolocation) with _ | g <;>
      simp [hany, hgeo]

/-- C4: the assembled part sequence is always the image parts in caller
order, then the optional audio part, then the text part, with omitted
inputs contributing zero parts; in particular images `[A, B]`, audio
`C` and a non-empty prompt `t` yield exactly `[A, B, C, text t]`. -/
theorem claim_C4_part_order (model : String) (config : Option RequestOptions)
    (prompt : String) :
    ((generateContentRequest model prompt config).contents =
      ((config.bind (fun c => c.images)).getD []).map
        (fun img => Part.inlineData img.base64Data img.mimeType) ++
      (match config.bind (fun c => c.audio) with
       | some a => [Part.inlineData a.base64Data a.mimeType]
       | none => []) ++
      (if prompt ≠ "" then [Part.text prompt] else [])) ∧
    (∀ (A B : ImageInput) (C : AudioInput) (t : String), t ≠ "" →
      (generateContentRequest model t
          (some { images := some [A, B], audio := some C })).contents =
        [Part.inlineData A.base64Data A.mimeType,
         Part.inlineData B.base64Data B.mimeType,
         Part.inlineData C.base64Data C.mimeType,
         Part.text t]) := by
  constructor
  · rcases him : (config.bind (fun c => c.images)).getD [] with _ | ⟨a, l⟩ <;>
      simp [generateContentRequest, buildParts, him]
  · intro A B C t ht
    simp [generateContentRequest, buildParts, ht]

theorem claim_C4_witness :
    (generateContentRequest ("gemini-pro") ("t")
        (some { images := some
                  [{ base64Data := ("imgA"), mimeType := ("image/png") },
                   { base64Data := ("imgB"), mimeType := ("image/jpeg") }],
                audio := some { base64Data := ("aud"), mimeType := ("audio/pcm") } })).contents =
      [Part.inlineData ("imgA") ("image/png"),
       Part.inlineData ("imgB") ("image/jpeg"),
       Part.inlineData ("aud") ("audio/pcm"),
       Part.text ("t")] :=
  (claim_C4_part_order ("gemini-pro") none ("x")).2 _ _ _ ("t") (by decide)

/-- C5: `thinkingConfig` wraps the budget iff the caller provided one —
a provided budget of `0` is wrapped, absence yields an absent config —
and `systemInstruction` and `tools` pass through verbatim. -/
theorem claim_C5_config (model prompt : String) (config : Option RequestOptions) :
    ((generateContentRequest model prompt config).config.systemInstruction =
        config.bind (fun c => c.systemInstruction)) ∧
    ((generateContentRequest model prompt config).config.tools =
        config.bind (fun c => c.tools)) ∧
    (∀ b : Int, ((generateContentRequest model prompt config).config.thinkingConfig =
          some { thinkingBudget := b } ↔
        config.bind (fun c => c.thinkingBudget) = some b)) ∧
    ((generateContentRequest model prompt config).config.thinkingConfig = none ↔
        config.bind (fun c => c.thinkingBudget) = none) := by
  have hc : (generateContentRequest model prompt config).config =
      buildGenerateConfig config := rfl
  simp only [hc]
  refine ⟨buildGenerateConfig_systemInstruction config,
    buildGenerateConfig_tools config, ?_, ?_⟩
  · intro b
    rw [buildGenerateConfig_thinkingConfig]
    rcases hb : config.bind (fun c => c.thinkingBudget) with _ | b' <;>
      simp [hb]
  · rw [buildGenerateConfig_thinkingConfig]
    rcases hb : config.bind (fun c => c.thinkingBudget) with _ | b' <;>
      simp [hb]

/-- C8: the `toolConfig` sub-structure is present iff some tool
requests googleMaps grounding and a geolocation was supplied, and then
carries exactly the supplied coordinates; a maps tool with no supplied
geolocation proceeds with an absent `toolConfig`. -/
theorem claim_C8_tool_config (model prompt : String) (config : Option RequestOptions) :
    ((generateContentRequest model prompt config).config.toolConfig ≠ none ↔
      ((config.bind (fun c => c.tools)).getD []).any
          (fun t => t.googleMaps) = true ∧
        config.bind (fun c => c.geolocation) ≠ none) ∧
    (∀ g, config.bind (fun c => c.geolocation) = some g →
      ((config.bind (fun c => c.tools)).getD []).any
          (fun t => t.googleMaps) = true →
      (generateContentRequest model prompt config).config.toolConfig =
        some { retrievalConfig := { latLng :=
          { latitude := g.coords.latitude
            longitude := g.coords.longitude } } }) := by
  have hc : (generateContentRequest model prompt config).config =
      buildGenerateConfig config := rfl
  simp only [hc]
  constructor
  · rw [buildGenerateConfig_toolConfig]
    cases hany : ((config.bind (fun c => c.tools)).getD []).any
        (fun t => t.googleMaps)
    · simp
    · rcases hgeo : config.bind (fun c => c.geolocation) with _ | g <;>
        simp [hgeo]
  · intro g hg ha
    rw [buildGenerateConfig_toolConfig, ha, hg]
    simp

theorem claim_C8_witness :
    (generateContentRequest ("gemini-pro") ("p")
        (some { tools := some [{ googleMaps := true }],
                geolocation := some { coords :=
                  { latitude := 1, longitude := 2 } } })).config.toolConfig =
      some { retrievalConfig := { latLng :=
        { latitude := 1, longitude := 2 } } } :=
  (claim_C8_tool_config ("gemini-pro") ("p")
      (some { tools := some [{ googleMaps := true }],
              geolocation := some { coords :=
                { latitude := 1, longitude := 2 } } })).2
    { coords := { latitude := 1, longitude := 2 } } rfl rfl

/-- C9: `checkAndSelectVeoApiKey` returns `true` on every path — host
key-selection API unavailable, key already selected, or no key selected
(after opening the selection dialog). -/
theorem claim_C9_always_true (env : AiStudioEnv) :
    (checkAndSelectVeoApiKey env).1 = true := by
  rcases env with ⟨a, k⟩
  cases a <;> cases k <;> rfl

/-- C10: with the empty string as prompt no text part is appended — the
assembled sequence is exactly the image parts followed by the optional
audio part, as for an absent text input. -/
theorem claim_C10_empty_prompt (model : String) (config : Option RequestOptions) :
    (generateContentRequest model "" config).contents =
      ((config.bind (fun c => c.images)).getD []).map
        (fun img => Part.inlineData img.base64Data img.mimeType) ++
      (match config.bind (fun c => c.audio) with
       | some a => [Part.inlineData a.base64Data a.mimeType]
       | none => []) := by
  rcases him : (config.bind (fun c => c.images)).getD [] with _ | ⟨a, l⟩ <;>
    simp [generateContentRequest, buildParts, him]



theorem convertMapsChunk_isSome (mo : Option RawMaps) :
    (convertMapsChunk mo).isSome =
      match mo with
      | some mm => truthyStr mm.uri && truthyStr mm.title
      | none => false := by
  rcases mo with _ | mm
  · rfl
  · simp only [convertMapsChunk]
    split <;> simp_all

/-- C6: when the first candidate's grounding chunk list is absent the
result is empty; otherwise the output is the in-order filter-map of the
chunk list (no sorting, no deduplication), a chunk contributing iff its
web or maps required fields are present and non-empty; review snippets
are copied through unchanged when their nested chain is present, and a
chunk missing its title is excluded. -/
theorem claim_C6_grounding (response : GenResponse) :
    (groundingChunksOf response = none → extractGroundingChunks response = []) ∧
    (∀ chunks, groundingChunksOf response = some chunks →
      extractGroundingChunks response = chunks.filterMap convertChunk) ∧
    (∀ c : RawChunk, (convertChunk c).isSome = (webValid c || mapsValid c)) ∧
    (∀ (m : RawMaps) (pas : PlaceAnswerSources) (snippets : List ReviewSnippet),
      truthyStr m.uri = true → truthyStr m.title = true →
      m.placeAnswerSources = some pas → pas.reviewSnippets = some snippets →
      convertMapsChunk (some m) =
        some (GroundingChunk.maps (m.uri.getD "") (m.title.getD "")
          (some snippets))) ∧
    (∀ w : RawWeb, w.title = none →
      convertChunk { web := some w, maps := none } = none) := by
  refine ⟨?_, ?_, ?_, ?_, ?_⟩
  · intro h
    simp [extractGroundingChunks, h]
  · intro chunks h
    simp [extractGroundingChunks, h]
  · intro c
    rcases c with ⟨w, m⟩
    rcases w with _ | ww
    · simp only [convertChunk, webValid, mapsValid, Bool.false_or]
      rw [convertMapsChunk_isSome]
    · simp only [convertChunk, webValid, mapsValid]
      split
      · simp_all
      · rw [convertMapsChunk_isSome]
        simp_all
  · intro m pas snippets hu ht hpas hsnip
    have hid : (fun sn : ReviewSnippet =>
        ({ reviewSnippet := sn.reviewSnippet, uri := sn.uri } : ReviewSnippet)) =
        id := by
      funext sn
      rfl
    simp only [convertMapsChunk, hu, ht, hpas, hsnip, Bool.and_self,
      if_true, hid, List.map_id]
  · intro w htitle
    simp [convertChunk, convertMapsChunk, truthyStr, htitle]

theorem claim_C6_witness :
    extractGroundingChunks
        { candidates := some [{ groundingMetadata := some { groundingChunks := some [
            { web := some { uri := some ("u"), title := some ("t") },
              maps := none },
            { web := some { uri := some ("u2"), title := none },
              maps := none }] } }] } =
      [GroundingChunk.web ("u") ("t")] := by
  rw [(claim_C6_grounding
      { candidates := some [{ groundingMetadata := some { groundingChunks := some [
          { web := some { uri := some ("u"), title := some ("t") },
            maps := none },
          { web := some { uri := some ("u2"), title := none },
            maps := none }] } }] }).2.1
      [{ web := some { uri := some ("u"), title := some ("t") }, maps := none },
       { web := some { uri := some ("u2"), title := none }, maps := none }]
      rfl]
  decide

/-- C7: a normalized message containing the not-found marker gains the
credential re-selection hint — the result contains both the original
text and the hint — and triggers exactly one dialog call; otherwise the
returned pair carries the normalized message and no dialog call, where
the normalized message prefers a truthy `message` field, falls back to
`API Error: <status> <statusText>` with an optional appended detail for
a response-shaped error, and otherwise is the generic fallback. -/
theorem claim_C7_error_normalization (error : ApiError) :
    (hasSub notFoundMsg.data (normalizeErrorMessage error).data = true →
      handleApiError true error = (normalizeErrorMessage error ++ keyHint, 1) ∧
      ContainsSub (normalizeErrorMessage error) (handleApiError true error).1 ∧
      ContainsSub keyHint (handleApiError true error).1) ∧
    (hasSub notFoundMsg.data (normalizeErrorMessage error).data = false →
      handleApiError true error = (normalizeErrorMessage error, 0)) ∧
    (∀ m, error.message = some m → m ≠ "" → normalizeErrorMessage error = m) ∧
    (∀ r, error.message = none → error.response = some r → r.status ≠ 0 →
      r.data = none →
      normalizeErrorMessage error =
        "API Error: " ++ toString r.status ++ " " ++ r.statusText) ∧
    (∀ r d m, error.message = none → error.response = some r → r.status ≠ 0 →
      r.data = some d → d.message = some m → m ≠ "" →
      normalizeErrorMessage error =
        "API Error: " ++ toString r.status ++ " " ++ r.statusText ++
          " - " ++ m) ∧
    (error.message = none → error.response = none →
      normalizeErrorMessage error = unexpectedMsg) := by
  refine ⟨?_, ?_, ?_, ?_, ?_, ?_⟩
  · intro h
    have h1 : handleApiError true error =
        (normalizeErrorMessage error ++ keyHint, 1) := by
      simp [handleApiError, h]
    refine ⟨h1, ?_, ?_⟩
    · rw [h1]
      exact ⟨[], keyHint.data, by simp⟩
    · rw [h1]
      exact ⟨(normalizeErrorMessage error).data, [], by simp⟩
  · intro h
    simp [handleApiError, h]
  · intro m hm hne
    simp [normalizeErrorMessage, hm, hne]
  · intro r hm hr hs hd
    simp [normalizeErrorMessage, responseMessage, hm, hr, hs, hd]
  · intro r d m hm hr hs hd hdm hne
    simp [normalizeErrorMessage, responseMessage, hm, hr, hs, hd, hdm, hne]
  · intro hm hr
    simp [normalizeErrorMessage, responseMessage, hm, hr]

theorem claim_C7_witness :
    hasSub notFoundMsg.data
        (normalizeErrorMessage { message := some notFoundMsg }).data = true ∧
    (handleApiError true { message := some notFoundMsg } =
      (normalizeErrorMessage { message := some notFoundMsg } ++ keyHint, 1) ∧
    ContainsSub (normalizeErrorMessage { message := some notFoundMsg })
      (handleApiError true { message := some notFoundMsg }).1 ∧
    ContainsSub keyHint
      (handleApiError true { message := some notFoundMsg }).1) :=
  ⟨by decide,
    (claim_C7_error_normalization { message := some notFoundMsg }).1 (by decide)⟩


end GeminiService
